import Mathlib

/-!
Shallow embedding of `src/main.py` (EPUB to PDF batch converter).

The Python program is orchestration code: it validates EPUB files (zip
sniffing), quarantines corrupted ones, builds an `ebook-convert` command
line, runs it with a retry loop, and records exactly one outcome per file
in a three-bucket report.  The embedding below models the filesystem and
the external tool as an explicit environment, and each Python function as
a pure Lean function returning the report delta and a trace of the
external commands invoked and the sleeps performed.  Exceptions that the
Python code does not catch are modelled with `Except`.
-/

/-- Substring test on character lists: does `hay` start with `needle`?
Models Python's prefix comparison used by the `in` operator scan. -/
def startsWithL : List Char → List Char → Bool
  | _, [] => true
  | [], _ :: _ => false
  | a :: as, b :: bs => a == b && startsWithL as bs

/-- Substring containment on character lists: `needle` occurs inside `hay`.
Models Python's `needle in hay` for strings. -/
def containsSub : List Char → List Char → Bool
  | [], needle => startsWithL [] needle
  | h :: t, needle => startsWithL (h :: t) needle || containsSub t needle

/-- String-level wrapper of `containsSub`: Python's `needle in hay`. -/
def strContains (hay needle : String) : Bool :=
  containsSub hay.data needle.data

/-- Python's `str.lower()` restricted to ASCII, mapped characterwise
(the two markers searched for are ASCII). -/
def lowerStr (s : String) : String :=
  ⟨s.data.map Char.toLower⟩

/-- Result of opening a candidate file with `zipfile.ZipFile`:
either it opens and yields its member name list, or it raises
`zipfile.BadZipFile`, or some other exception is raised. -/
inductive ZipState where
  | zip (members : List String)
  | badZip (detail : String)
  | otherError (detail : String)

/-- Embedding of `is_valid_epub` (src/main.py lines 136-162).  The file's
content is abstracted by the `ZipState` the `zipfile` open produces.
`any("container.xml" in name.lower() ...)` and `any(".opf" in ...)` are the
two marker scans; the two except clauses are the last two cases. -/
def is_valid_epub (st : ZipState) : Bool × String :=
  match st with
  | ZipState.zip members =>
      let container := members.any (fun nm => strContains (lowerStr nm) "container.xml")
      let opf := members.any (fun nm => strContains (lowerStr nm) ".opf")
      if container = false then (false, "Missing container.xml")
      else if opf = false then (false, "Missing .opf file")
      else (true, "")
  | ZipState.badZip e => (false, "Invalid ZIP file: " ++ e)
  | ZipState.otherError e => (false, "Error checking EPUB: " ++ e)

/-- A value of the `pdf_options` mapping: Python bool, str, or int
(the default config uses ints and bools). -/
inductive OptValue where
  | boolean (b : Bool)
  | str (s : String)
  | num (n : Int)
deriving DecidableEq

/-- Python's `str(value)` for the non-bool option values. -/
def pyStr : OptValue → String
  | OptValue.boolean b => if b then "True" else "False"
  | OptValue.str s => s
  | OptValue.num n => toString n

/-- Embedding of the command construction in `convert_epub_to_pdf`
(src/main.py lines 234-243): start from
`["ebook-convert", epub_file, pdf_file]` and fold over the options in
order, appending `--option` for a true bool, nothing for a false bool,
and `--option value` otherwise. -/
def buildCmd (epub_file pdf_file : String) (pdf_options : List (String × OptValue)) : List String :=
  pdf_options.foldl
    (fun cmd ov =>
      match ov.2 with
      | OptValue.boolean true => cmd ++ ["--" ++ ov.1]
      | OptValue.boolean false => cmd
      | v => cmd ++ ["--" ++ ov.1, pyStr v])
    ["ebook-convert", epub_file, pdf_file]

/-- The per-option contribution described independently of the fold:
a true bool yields just the flag, a false bool nothing, anything else the
flag followed by the stringified value. -/
def optArgs (ov : String × OptValue) : List String :=
  match ov.2 with
  | OptValue.boolean true => ["--" ++ ov.1]
  | OptValue.boolean false => []
  | v => ["--" ++ ov.1, pyStr v]

/-- Concatenation of the per-option contributions in order. -/
def renderOpts : List (String × OptValue) → List String
  | [] => []
  | ov :: t => optArgs ov ++ renderOpts t

/-- Embedding of `ConversionReport`'s three lists (src/main.py lines
51-66).  A call's effect on the shared report is modelled as the delta of
entries it appends. -/
structure Report where
  corrupted_files : List (String × String)
  failed_conversions : List (String × String)
  successful_conversions : List (String × Nat)
deriving DecidableEq

def Report.empty : Report := ⟨[], [], []⟩

def Report.add_corrupted (r : Report) (file_path error : String) : Report :=
  { r with corrupted_files := r.corrupted_files ++ [(file_path, error)] }

def Report.add_failed (r : Report) (file_path error : String) : Report :=
  { r with failed_conversions := r.failed_conversions ++ [(file_path, error)] }

def Report.add_success (r : Report) (file_path : String) (time_taken : Nat) : Report :=
  { r with successful_conversions := r.successful_conversions ++ [(file_path, time_taken)] }

/-- Total number of entries across the three report buckets. -/
def reportTotal (r : Report) : Nat :=
  r.corrupted_files.length + r.failed_conversions.length + r.successful_conversions.length

/-- Behaviour of one `subprocess.run` invocation of the external tool:
zero exit with a wall-clock duration, `CalledProcessError` with message
and captured stdout/stderr, or some other exception inside the try block. -/
inductive ToolResult where
  | ok (elapsed : Nat)
  | fail (msg stdout stderr : String)
  | exc (msg : String)

/-- The environment a single `convert_epub_to_pdf` call observes:
whether the input exists, what opening it as a zip yields, whether the
target PDF already exists, what the external tool does on each attempt
(indexed by attempt number), and whether `shutil.move` into quarantine
succeeds (with the raised message when it does not). -/
structure Env where
  epubExists : Bool
  zipState : ZipState
  pdfExists : Bool
  tool : Nat → ToolResult
  moveOk : Bool
  moveErr : String

deriving instance DecidableEq for Except

/-- Observable result of one `convert_epub_to_pdf` call: the report
delta, the external commands invoked in order, the sleep durations
performed in order, and its outcome — `Except.error` when an exception
escapes the function, otherwise the Python return value (`none` models
falling off the end and returning `None`). -/
structure ConvResult where
  report : Report
  cmds : List (List String)
  sleeps : List Nat
  outcome : Except String (Option Bool)
deriving DecidableEq

/-- The `last_error` text built on `CalledProcessError`
(src/main.py line 261). -/
def lastError (msg stdout stderr : String) : String :=
  "Conversion error: " ++ msg ++ "\nOutput: " ++ stdout ++ "\nError: " ++ stderr

/-- Embedding of `for attempt in range(max_retries)` (src/main.py lines
231-280).  `remaining` counts the iterations left, so the current
`attempt` is `maxRetries - remaining`; falling through the loop returns
`none`.  `r`, `cs`, `ss` accumulate the report delta, invoked commands
and sleeps performed so far. -/
def attemptLoop (env : Env) (epub_file pdf_file : String)
    (pdf_options : List (String × OptValue)) (maxRetries : Nat) :
    Nat → Report → List (List String) → List Nat → ConvResult
  | 0, r, cs, ss => ⟨r, cs, ss, Except.ok none⟩
  | k + 1, r, cs, ss =>
      let attempt := maxRetries - (k + 1)
      let cmd := buildCmd epub_file pdf_file pdf_options
      match env.tool attempt with
      | ToolResult.ok elapsed =>
          ⟨r.add_success epub_file elapsed, cs ++ [cmd], ss, Except.ok (some true)⟩
      | ToolResult.fail m out err =>
          if 0 < k then
            attemptLoop env epub_file pdf_file pdf_options maxRetries k r (cs ++ [cmd]) (ss ++ [1])
          else
            ⟨r.add_failed epub_file (lastError m out err), cs ++ [cmd], ss, Except.ok (some false)⟩
      | ToolResult.exc m =>
          ⟨r.add_failed epub_file ("Unexpected error: " ++ m), cs ++ [cmd], ss, Except.ok (some false)⟩

/-- Python `os.path.basename` for POSIX paths: everything after the last
separator. -/
def basenameStr (p : String) : String :=
  ⟨(p.data.reverse.takeWhile (fun c => c != '/')).reverse⟩

/-- Python `os.path.dirname` for POSIX paths: the part up to and
including the last separator, with trailing separators stripped unless it
is all separators. -/
def dirnameStr (p : String) : String :=
  let headRev := p.data.reverse.dropWhile (fun c => c != '/')
  if headRev ≠ [] ∧ ¬ (headRev.all (fun c => c == '/')) then
    ⟨(headRev.dropWhile (fun c => c == '/')).reverse⟩
  else
    ⟨headRev.reverse⟩

/-- Python `os.path.splitext` for POSIX paths on character lists: split
at the last dot, provided it comes after the last separator and the
filename is not entirely dots up to it. -/
def splitextD (l : List Char) : List Char × List Char :=
  match l.reverse.dropWhile (fun c => c != '.' && c != '/') with
  | [] => (l, [])
  | c :: restTail =>
      if c = '.' then
        if (restTail.takeWhile (fun x => x != '/')).any (fun x => x != '.') then
          (restTail.reverse, '.' :: (l.reverse.takeWhile (fun c => c != '.' && c != '/')).reverse)
        else (l, [])
      else (l, [])

/-- String-level `os.path.splitext`. -/
def splitextStr (p : String) : String × String :=
  ((splitextD p.data).1.asString, (splitextD p.data).2.asString)

/-- Python `os.path.join` for POSIX paths, two components: an absolute
second component wins; otherwise concatenate, inserting a separator
unless the first component is empty or already ends in one. -/
def joinPath (a b : String) : String :=
  if b.data.head? = some '/' then b
  else if a = "" ∨ a.data.getLast? = some '/' then a ++ b
  else a ++ "/" ++ b

/-- Embedding of `convert_epub_to_pdf` (src/main.py lines 165-280).
The shared report argument is modelled by returning the delta of entries
appended during the call (`main` always passes a report, so the
`if report:` guards are always taken).  `quarantine_dir=None` is the
`Option.none` case; when a quarantine directory is given and the file is
invalid, `move_to_quarantine` runs with no surrounding try block, so a
move failure escapes as `Except.error` after the corrupted entry was
appended. -/
def convert_epub_to_pdf (env : Env) (epub_file : String) (output_dir : Option String)
    (overwrite : Bool) (pdf_options : List (String × OptValue)) (max_retries : Nat)
    (quarantine_dir : Option String) : ConvResult :=
  if env.epubExists = false then
    ⟨Report.empty.add_failed epub_file "File not found", [], [], Except.ok (some false)⟩
  else
    let v := is_valid_epub env.zipState
    if v.1 = false then
      let r := Report.empty.add_corrupted epub_file v.2
      match quarantine_dir with
      | some _ =>
          if env.moveOk then ⟨r, [], [], Except.ok (some false)⟩
          else ⟨r, [], [], Except.error env.moveErr⟩
      | none => ⟨r, [], [], Except.ok (some false)⟩
    else
      let out_dir := output_dir.getD (dirnameStr epub_file)
      let base_name := (splitextStr (basenameStr epub_file)).1
      let pdf_file := joinPath out_dir (base_name ++ ".pdf")
      if env.pdfExists && !overwrite then
        ⟨Report.empty.add_success epub_file 0, [], [], Except.ok (some true)⟩
      else
        attemptLoop env epub_file pdf_file pdf_options max_retries max_retries Report.empty [] []

/-- Minimal filesystem state for `move_to_quarantine`: the set of
existing file paths and existing directory paths. -/
structure QFS where
  files : List String
  dirs : List String
deriving DecidableEq

/-- Python `os.path.exists`: true for an existing file or directory. -/
def pathExists (fs : QFS) (p : String) : Bool :=
  fs.files.contains p || fs.dirs.contains p

/-- Embedding of `move_to_quarantine` (src/main.py lines 107-133):
create the quarantine directory if absent, deconflict a same-named
destination by appending `_<timestamp>` to the stem, then move (the
source path stops existing, the destination path starts existing).
The second-resolution timestamp string is an input from the environment. -/
def move_to_quarantine (fs : QFS) (file_path quarantine_dir timestamp : String) :
    QFS × String :=
  let fs1 := if pathExists fs quarantine_dir then fs
    else { fs with dirs := quarantine_dir :: fs.dirs }
  let base_name := basenameStr file_path
  let qp0 := joinPath quarantine_dir base_name
  let quarantine_path :=
    if pathExists fs1 qp0 then
      let ne := splitextStr base_name
      joinPath quarantine_dir (ne.1 ++ "_" ++ timestamp ++ ne.2)
    else qp0
  ({ files := quarantine_path :: fs1.files.erase file_path, dirs := fs1.dirs },
   quarantine_path)

/-! ### Helper lemmas -/

lemma startsWithL_nil (l : List Char) : startsWithL l [] = true := by
  cases l <;> rfl

lemma startsWithL_append (n b : List Char) : startsWithL (n ++ b) n = true := by
  induction n with
  | nil => exact startsWithL_nil b
  | cons c t ih => simp [startsWithL, ih]

lemma containsSub_of_startsWith (l n : List Char) (h : startsWithL l n = true) :
    containsSub l n = true := by
  cases l <;> simp [containsSub, h]

lemma containsSub_append_middle (a n b : List Char) :
    containsSub (a ++ (n ++ b)) n = true := by
  induction a with
  | nil => exact containsSub_of_startsWith _ _ (startsWithL_append n b)
  | cons c t ih => simp [containsSub, ih]

/-- Any string of the form `a ++ n ++ b` contains `n` as a substring. -/
lemma strContains_middle (a n b : String) : strContains (a ++ n ++ b) n = true := by
  unfold strContains
  have h : (a ++ n ++ b).data = a.data ++ (n.data ++ b.data) := by
    simp [String.data_append, List.append_assoc]
  rw [h]
  exact containsSub_append_middle _ _ _

/-- The error text recorded after a failed attempt contains the captured
stdout of that attempt. -/
lemma lastError_contains_stdout (m out err : String) :
    strContains (lastError m out err) out = true := by
  have h : lastError m out err =
      ("Conversion error: " ++ m ++ "\nOutput: ") ++ out ++ ("\nError: " ++ err) := by
    unfold lastError
    ext1
    simp [String.data_append, List.append_assoc]
  rw [h]
  exact strContains_middle _ _ _

/-- The error text recorded after a failed attempt contains the captured
stderr of that attempt. -/
lemma lastError_contains_stderr (m out err : String) :
    strContains (lastError m out err) err = true := by
  have h : lastError m out err =
      ("Conversion error: " ++ m ++ "\nOutput: " ++ out ++ "\nError: ") ++ err ++ "" := by
    unfold lastError
    ext1
    simp [String.data_append, List.append_assoc]
  rw [h]
  exact strContains_middle _ _ _

lemma buildCmd_foldl_general (opts : List (String × OptValue)) :
    ∀ init : List String,
      opts.foldl
        (fun cmd ov =>
          match ov.2 with
          | OptValue.boolean true => cmd ++ ["--" ++ ov.1]
          | OptValue.boolean false => cmd
          | v => cmd ++ ["--" ++ ov.1, pyStr v])
        init = init ++ renderOpts opts := by
  induction opts with
  | nil => intro init; simp [renderOpts]
  | cons ov t ih =>
      intro init
      rcases ov with ⟨o, v⟩
      rcases v with b | s | n
      · rcases b with _ | _ <;>
          simp [renderOpts, optArgs, ih, List.append_assoc]
      · simp [renderOpts, optArgs, ih, List.append_assoc]
      · simp [renderOpts, optArgs, ih, List.append_assoc]


lemma reportTotal_add_corrupted (r : Report) (f e : String) :
    reportTotal (r.add_corrupted f e) = reportTotal r + 1 := by
  simp [reportTotal, Report.add_corrupted]
  omega

lemma reportTotal_add_failed (r : Report) (f e : String) :
    reportTotal (r.add_failed f e) = reportTotal r + 1 := by
  simp [reportTotal, Report.add_failed]
  omega

lemma reportTotal_add_success (r : Report) (f : String) (t : Nat) :
    reportTotal (r.add_success f t) = reportTotal r + 1 := by
  simp [reportTotal, Report.add_success]
  omega

/-- As long as at least one loop iteration remains, the retry loop
records exactly one more report entry than it started with. -/
lemma attemptLoop_total (env : Env) (f pdf : String) (opts : List (String × OptValue))
    (mr : Nat) :
    ∀ k, 1 ≤ k → ∀ r cs ss,
      reportTotal (attemptLoop env f pdf opts mr k r cs ss).report = reportTotal r + 1 := by
  intro k
  induction k with
  | zero => intro h; omega
  | succ k ih =>
      intro _ r cs ss
      cases h : env.tool (mr - (k + 1)) with
      | ok t =>
          simp only [attemptLoop, h]
          simp [reportTotal_add_success]
      | fail m out err =>
          by_cases hk : 0 < k
          · simp only [attemptLoop, h, hk, if_pos]
            exact ih hk _ _ _
          · simp only [attemptLoop, h, hk, if_neg]
            simp [reportTotal_add_failed]
      | exc m =>
          simp only [attemptLoop, h]
          simp [reportTotal_add_failed]

/-- When every attempt fails with `CalledProcessError`, the loop runs all
remaining iterations, sleeps a 1-unit backoff between consecutive ones,
and records a single failed entry carrying the last attempt's error text. -/
lemma attemptLoop_all_fail (env : Env) (f pdf : String) (opts : List (String × OptValue))
    (mr : Nat) (m o s : Nat → String)
    (hfail : ∀ i, env.tool i = ToolResult.fail (m i) (o i) (s i)) :
    ∀ k, 1 ≤ k → ∀ r cs ss,
      attemptLoop env f pdf opts mr k r cs ss =
        ⟨r.add_failed f (lastError (m (mr - 1)) (o (mr - 1)) (s (mr - 1))),
         cs ++ List.replicate k (buildCmd f pdf opts),
         ss ++ List.replicate (k - 1) 1,
         Except.ok (some false)⟩ := by
  intro k
  induction k with
  | zero => intro h; omega
  | succ k ih =>
      intro _ r cs ss
      by_cases hk : 0 < k
      · simp only [attemptLoop, hfail (mr - (k + 1)), hk, if_pos]
        rw [ih hk _ _ _]
        congr 1
        · simp [List.append_assoc, List.replicate_succ]
        · have hkk : k + 1 - 1 = (k - 1) + 1 := by omega
          rw [hkk]
          simp [List.append_assoc, List.replicate_succ]
      · have hk0 : k = 0 := by omega
        subst hk0
        have hattempt : mr - (0 + 1) = mr - 1 := by omega
        simp only [attemptLoop, hfail (mr - (0 + 1)), if_neg (by omega : ¬ 0 < 0), hattempt]
        simp

/-- As long as at least one iteration remains, the loop invokes the
external tool at least once. -/
lemma attemptLoop_cmds_len (env : Env) (f pdf : String) (opts : List (String × OptValue))
    (mr : Nat) :
    ∀ k, 1 ≤ k → ∀ r cs ss,
      cs.length + 1 ≤ (attemptLoop env f pdf opts mr k r cs ss).cmds.length := by
  intro k
  induction k with
  | zero => intro h; omega
  | succ k ih =>
      intro _ r cs ss
      cases h : env.tool (mr - (k + 1)) with
      | ok t => simp [attemptLoop, h]
      | fail m out err =>
          by_cases hk : 0 < k
          · simp only [attemptLoop, h, hk, if_pos]
            have := ih hk r (cs ++ [buildCmd f pdf opts]) (ss ++ [1])
            simp at this
            omega
          · simp only [attemptLoop, h, hk, if_neg]
            simp
      | exc m => simp [attemptLoop, h]

/-- Every command the loop invokes is the single command built by
`buildCmd` for this file. -/
lemma attemptLoop_cmds_mem (env : Env) (f pdf : String) (opts : List (String × OptValue))
    (mr : Nat) :
    ∀ k r cs ss c, c ∈ (attemptLoop env f pdf opts mr k r cs ss).cmds →
      c ∈ cs ∨ c = buildCmd f pdf opts := by
  intro k
  induction k with
  | zero =>
      intro r cs ss c hc
      simp only [attemptLoop] at hc
      exact Or.inl hc
  | succ k ih =>
      intro r cs ss c hc
      cases h : env.tool (mr - (k + 1)) with
      | ok t =>
          simp only [attemptLoop, h] at hc
          simpa using hc
      | fail m out err =>
          by_cases hk : 0 < k
          · simp only [attemptLoop, h, hk, if_pos] at hc
            rcases ih r _ _ c hc with hmem | heq
            · simpa using hmem
            · exact Or.inr heq
          · simp only [attemptLoop, h, hk, if_neg] at hc
            simpa using hc
      | exc m =>
          simp only [attemptLoop, h] at hc
          simpa using hc

/-- The loop's outcome is always a normal return, never an escaping
exception. -/
lemma attemptLoop_outcome_ok (env : Env) (f pdf : String) (opts : List (String × OptValue))
    (mr : Nat) :
    ∀ k r cs ss, ∃ b, (attemptLoop env f pdf opts mr k r cs ss).outcome = Except.ok b := by
  intro k
  induction k with
  | zero => intro r cs ss; exact ⟨none, rfl⟩
  | succ k ih =>
      intro r cs ss
      cases h : env.tool (mr - (k + 1)) with
      | ok t => exact ⟨some true, by simp [attemptLoop, h]⟩
      | fail m out err =>
          by_cases hk : 0 < k
          · simp only [attemptLoop, h, hk, if_pos]
            exact ih _ _ _
          · exact ⟨some false, by simp [attemptLoop, h, hk, if_neg]⟩
      | exc m => exact ⟨some false, by simp [attemptLoop, h]⟩

/-- When the input exists, validates, and the skip branch is not taken,
`convert_epub_to_pdf` is exactly the retry loop run on the computed
output path with a full retry budget and an empty report delta. -/
lemma convert_run (env : Env) (f : String) (od : Option String) (ow : Bool)
    (opts : List (String × OptValue)) (mr : Nat) (qd : Option String)
    (hex : env.epubExists = true) (hv : (is_valid_epub env.zipState).1 = true)
    (hskip : env.pdfExists = false ∨ ow = true) :
    convert_epub_to_pdf env f od ow opts mr qd =
      attemptLoop env f
        (joinPath (od.getD (dirnameStr f)) ((splitextStr (basenameStr f)).1 ++ ".pdf"))
        opts mr mr Report.empty [] [] := by
  rcases hskip with h | h <;> simp [convert_epub_to_pdf, hex, hv, h]

/-- A zip member list containing both required markers. -/
def validZip : ZipState :=
  ZipState.zip ["META-INF/container.xml", "OEBPS/content.opf"]

/-- Existing valid input, no pre-existing PDF, tool always succeeds,
quarantine moves succeed. -/
def envOkTool : Env :=
  ⟨true, validZip, false, fun _ => ToolResult.ok 2, true, ""⟩

/-- Existing valid input, no pre-existing PDF, tool always exits nonzero. -/
def envFailTool : Env :=
  ⟨true, validZip, false,
   fun _ => ToolResult.fail "exit status 1" "calibre-out" "calibre-err", true, ""⟩

/-- Existing valid input whose target PDF already exists. -/
def envPdfExists : Env :=
  ⟨true, validZip, true, fun _ => ToolResult.ok 2, true, ""⟩

/-- Existing corrupted input whose quarantine move raises. -/
def envMoveFail : Env :=
  ⟨true, ZipState.badZip "bad magic", false, fun _ => ToolResult.ok 1, false, "disk full"⟩

/-- Existing valid input where the conversion attempt raises an
unexpected exception. -/
def envExcTool : Env :=
  ⟨true, validZip, false, fun _ => ToolResult.exc "oops", true, ""⟩

/-! ### Claim theorems -/

/-- C1 (amended: for a positive retry budget): every call of
`convert_epub_to_pdf` with `max_retries ≥ 1` appends exactly one entry to
exactly one of the report's three lists, whatever the file's existence,
validity, overwrite flag and external-tool behaviour, so the bucket sum
equals the number of processed files. -/
theorem c1_exactly_one_outcome (env : Env) (f : String) (od : Option String) (ow : Bool)
    (opts : List (String × OptValue)) (mr : Nat) (qd : Option String) (hmr : 1 ≤ mr) :
    reportTotal (convert_epub_to_pdf env f od ow opts mr qd).report = 1 := by
  by_cases hex : env.epubExists = false
  · simp [convert_epub_to_pdf, hex, reportTotal, Report.add_failed, Report.empty]
  · have hex' : env.epubExists = true := by
      cases h : env.epubExists
      · exact absurd h hex
      · rfl
    cases hv : (is_valid_epub env.zipState).1 with
    | false =>
        cases qd with
        | none =>
            simp [convert_epub_to_pdf, hex', hv, reportTotal, Report.add_corrupted, Report.empty]
        | some q =>
            by_cases hmv : env.moveOk <;>
              simp [convert_epub_to_pdf, hex', hv, hmv, reportTotal,
                Report.add_corrupted, Report.empty]
    | true =>
        by_cases hskip : env.pdfExists && !ow = true
        · rw [Bool.and_eq_true] at hskip
          obtain ⟨hpdf, hnow⟩ := hskip
          have how : ow = false := by
            cases h : ow
            · rfl
            · rw [h] at hnow
              exact absurd hnow (by decide)
          simp [convert_epub_to_pdf, hex', hv, hpdf, how, reportTotal,
            Report.add_success, Report.empty]
        · have hsk : env.pdfExists = false ∨ ow = true := by
            cases hp : env.pdfExists
            · exact Or.inl rfl
            · cases how : ow
              · exact absurd (by simp [hp, how]) hskip
              · exact Or.inr rfl
          rw [convert_run env f od ow opts mr qd hex' hv hsk]
          rw [attemptLoop_total env f _ opts mr mr hmr Report.empty [] []]
          rfl

/-- C1 counterexample: with `max_retries = 0`, an existing valid file
whose PDF does not yet exist produces no report entry at all, so the
bucket sum is 0 while one file was discovered and processed. -/
theorem c1_counterexample :
    reportTotal (convert_epub_to_pdf envOkTool "books/b.epub" none false [] 0 none).report ≠ 1 := by
  decide

/-- C1 witness at a concrete input. -/
theorem c1_witness :
    1 ≤ 3 ∧
      reportTotal (convert_epub_to_pdf envOkTool "books/b.epub" none false [] 3 none).report = 1 :=
  ⟨by decide, c1_exactly_one_outcome envOkTool "books/b.epub" none false [] 3 none (by decide)⟩

/-- C2: for an existing valid input whose external tool invocation exits
nonzero on every attempt, `convert_epub_to_pdf` invokes the tool exactly
`max_retries` times, sleeps the fixed 1-unit backoff between consecutive
attempts, and records one FailedConversion entry whose error text
contains the last attempt's captured stdout and stderr. -/
theorem c2_retry_exhaustion (env : Env) (f : String) (od : Option String) (ow : Bool)
    (opts : List (String × OptValue)) (mr : Nat) (qd : Option String) (m o s : Nat → String)
    (hex : env.epubExists = true) (hv : (is_valid_epub env.zipState).1 = true)
    (hskip : env.pdfExists = false ∨ ow = true)
    (hfail : ∀ i, env.tool i = ToolResult.fail (m i) (o i) (s i)) (hmr : 1 ≤ mr) :
    (convert_epub_to_pdf env f od ow opts mr qd).cmds.length = mr ∧
    (convert_epub_to_pdf env f od ow opts mr qd).sleeps = List.replicate (mr - 1) 1 ∧
    (convert_epub_to_pdf env f od ow opts mr qd).report =
      Report.empty.add_failed f (lastError (m (mr - 1)) (o (mr - 1)) (s (mr - 1))) ∧
    strContains (lastError (m (mr - 1)) (o (mr - 1)) (s (mr - 1))) (o (mr - 1)) = true ∧
    strContains (lastError (m (mr - 1)) (o (mr - 1)) (s (mr - 1))) (s (mr - 1)) = true ∧
    (convert_epub_to_pdf env f od ow opts mr qd).outcome = Except.ok (some false) := by
  rw [convert_run env f od ow opts mr qd hex hv hskip]
  rw [attemptLoop_all_fail env f _ opts mr m o s hfail mr hmr Report.empty [] []]
  exact ⟨by simp, by simp, rfl, lastError_contains_stdout _ _ _,
    lastError_contains_stderr _ _ _, rfl⟩

/-- C2 witness at a concrete input: two attempts, one backoff sleep, one
failed entry carrying the captured output of the last attempt. -/
theorem c2_witness :
    (convert_epub_to_pdf envFailTool "books/b.epub" none false [] 2 none).cmds.length = 2 ∧
    (convert_epub_to_pdf envFailTool "books/b.epub" none false [] 2 none).sleeps =
      List.replicate 1 1 ∧
    (convert_epub_to_pdf envFailTool "books/b.epub" none false [] 2 none).report =
      Report.empty.add_failed "books/b.epub"
        (lastError "exit status 1" "calibre-out" "calibre-err") ∧
    strContains (lastError "exit status 1" "calibre-out" "calibre-err") "calibre-out" = true ∧
    strContains (lastError "exit status 1" "calibre-out" "calibre-err") "calibre-err" = true ∧
    (convert_epub_to_pdf envFailTool "books/b.epub" none false [] 2 none).outcome =
      Except.ok (some false) :=
  c2_retry_exhaustion envFailTool "books/b.epub" none false [] 2 none
    (fun _ => "exit status 1") (fun _ => "calibre-out") (fun _ => "calibre-err")
    rfl (by decide) (Or.inl rfl) (fun _ => rfl) (by decide)

/-- C3 (amended): an error raised during a conversion attempt is caught
and recorded as a FailedConversion entry without propagating; the only
exception that can escape `convert_epub_to_pdf` is a quarantine-move
failure, and even then the corrupted outcome has already been recorded
for that file. -/
theorem c3_worker_error_containment (env : Env) (f : String) (od : Option String) (ow : Bool)
    (opts : List (String × OptValue)) (mr : Nat) (qd : Option String) :
    (∀ e, (convert_epub_to_pdf env f od ow opts mr qd).outcome = Except.error e →
      env.moveOk = false ∧ e = env.moveErr ∧
      (convert_epub_to_pdf env f od ow opts mr qd).report.corrupted_files.length = 1) ∧
    (∀ m, env.tool 0 = ToolResult.exc m → env.epubExists = true →
      (is_valid_epub env.zipState).1 = true → (env.pdfExists = false ∨ ow = true) → 1 ≤ mr →
      (convert_epub_to_pdf env f od ow opts mr qd).report.failed_conversions =
        [(f, "Unexpected error: " ++ m)] ∧
      (convert_epub_to_pdf env f od ow opts mr qd).outcome = Except.ok (some false)) := by
  constructor
  · intro e he
    by_cases hex : env.epubExists = false
    · simp [convert_epub_to_pdf, hex] at he
    · have hex' : env.epubExists = true := by
        cases h : env.epubExists
        · exact absurd h hex
        · rfl
      cases hv : (is_valid_epub env.zipState).1 with
      | false =>
          cases qd with
          | none => simp [convert_epub_to_pdf, hex', hv] at he
          | some q =>
              by_cases hmv : env.moveOk
              · simp [convert_epub_to_pdf, hex', hv, hmv] at he
              · have hmv' : env.moveOk = false := by
                  cases h : env.moveOk
                  · rfl
                  · exact absurd h hmv
                refine ⟨hmv', ?_, ?_⟩
                · simp [convert_epub_to_pdf, hex', hv, hmv'] at he
                  exact he.symm
                · simp [convert_epub_to_pdf, hex', hv, hmv',
                    Report.add_corrupted, Report.empty]
      | true =>
          by_cases hskip : env.pdfExists && !ow = true
          · rw [Bool.and_eq_true] at hskip
            obtain ⟨hpdf, hnow⟩ := hskip
            have how : ow = false := by
              cases h : ow
              · rfl
              · rw [h] at hnow
                exact absurd hnow (by decide)
            simp [convert_epub_to_pdf, hex', hv, hpdf, how] at he
          · have hsk : env.pdfExists = false ∨ ow = true := by
              cases hp : env.pdfExists
              · exact Or.inl rfl
              · cases how : ow
                · exact absurd (by simp [hp, how]) hskip
                · exact Or.inr rfl
            rw [convert_run env f od ow opts mr qd hex' hv hsk] at he
            obtain ⟨b, hb⟩ :=
              attemptLoop_outcome_ok env f
                (joinPath (od.getD (dirnameStr f)) ((splitextStr (basenameStr f)).1 ++ ".pdf"))
                opts mr mr Report.empty [] []
            rw [hb] at he
            exact absurd he (by simp)
  · intro m htool hex hv hskip hmr
    rw [convert_run env f od ow opts mr qd hex hv hskip]
    obtain ⟨mr', hmr'⟩ : ∃ mr', mr = mr' + 1 := ⟨mr - 1, by omega⟩
    subst hmr'
    have hattempt : mr' + 1 - (mr' + 1) = 0 := by omega
    simp only [attemptLoop, hattempt, htool]
    constructor
    · simp [Report.add_failed, Report.empty]
    · trivial

/-- C3 counterexample: when the quarantine move fails for a corrupted
file, the exception escapes `convert_epub_to_pdf` instead of being
converted into a recorded per-file outcome. -/
theorem c3_counterexample :
    (convert_epub_to_pdf envMoveFail "books/c.epub" none false [] 3 (some "q")).outcome =
      Except.error "disk full" := by
  decide

/-- C3 witness at concrete inputs: the escape only happens on a failed
quarantine move (with the corrupted entry recorded), and an unexpected
in-attempt exception is downgraded to a FailedConversion entry. -/
theorem c3_witness :
    (envMoveFail.moveOk = false ∧ "disk full" = envMoveFail.moveErr ∧
      (convert_epub_to_pdf envMoveFail "books/c.epub" none false [] 3
        (some "q")).report.corrupted_files.length = 1) ∧
    ((convert_epub_to_pdf envExcTool "books/c.epub" none false [] 3
        none).report.failed_conversions = [("books/c.epub", "Unexpected error: " ++ "oops")] ∧
      (convert_epub_to_pdf envExcTool "books/c.epub" none false [] 3 none).outcome =
        Except.ok (some false)) :=
  ⟨(c3_worker_error_containment envMoveFail "books/c.epub" none false [] 3 (some "q")).1
      "disk full" (by decide),
   (c3_worker_error_containment envExcTool "books/c.epub" none false [] 3 none).2
      "oops" rfl rfl (by decide) (Or.inl rfl) (by decide)⟩

/-- C4 (amended: the rejection messages are the ones the code emits,
namely "Missing container.xml", "Missing .opf file",
"Invalid ZIP file: <detail>" for a file that does not open as a zip, and
"Error checking EPUB: <detail>" for any other error while checking):
`is_valid_epub` returns `(true, "")` exactly when the file opens as a zip
archive and some member's lowercased name contains "container.xml" and
some member's lowercased name contains ".opf", and classifies every
failure with the corresponding message; being a total function it never
raises. -/
theorem c4_validator_classification (st : ZipState) :
    (is_valid_epub st = (true, "") ↔
      ∃ members, st = ZipState.zip members ∧
        members.any (fun nm => strContains (lowerStr nm) "container.xml") = true ∧
        members.any (fun nm => strContains (lowerStr nm) ".opf") = true) ∧
    (∀ members, st = ZipState.zip members →
      members.any (fun nm => strContains (lowerStr nm) "container.xml") = false →
      is_valid_epub st = (false, "Missing container.xml")) ∧
    (∀ members, st = ZipState.zip members →
      members.any (fun nm => strContains (lowerStr nm) "container.xml") = true →
      members.any (fun nm => strContains (lowerStr nm) ".opf") = false →
      is_valid_epub st = (false, "Missing .opf file")) ∧
    (∀ d, st = ZipState.badZip d →
      is_valid_epub st = (false, "Invalid ZIP file: " ++ d)) ∧
    (∀ d, st = ZipState.otherError d →
      is_valid_epub st = (false, "Error checking EPUB: " ++ d)) := by
  refine ⟨?_, ?_, ?_, ?_, ?_⟩
  · constructor
    · intro h
      cases st with
      | zip members =>
          cases h1 : members.any (fun nm => strContains (lowerStr nm) "container.xml") with
          | false => simp [is_valid_epub, h1] at h
          | true =>
              cases h2 : members.any (fun nm => strContains (lowerStr nm) ".opf") with
              | false => simp [is_valid_epub, h1, h2] at h
              | true => exact ⟨members, rfl, h1, h2⟩
      | badZip d => simp [is_valid_epub] at h
      | otherError d => simp [is_valid_epub] at h
    · rintro ⟨members, rfl, h1, h2⟩
      simp [is_valid_epub, h1, h2]
  · rintro members rfl h1
    simp [is_valid_epub, h1]
  · rintro members rfl h1 h2
    simp [is_valid_epub, h1, h2]
  · rintro d rfl
    rfl
  · rintro d rfl
    rfl

/-- C4 counterexample: a file that does not open as a zip archive is
rejected with the message "Invalid ZIP file: <detail>", not the literal
reason "invalid archive" the claim quotes. -/
theorem c4_counterexample :
    (is_valid_epub (ZipState.badZip "File is not a zip file")).1 = false ∧
    (is_valid_epub (ZipState.badZip "File is not a zip file")).2 ≠ "invalid archive" := by
  decide

/-- C4 witness at concrete inputs: a zip lacking the manifest marker and
a non-archive file get the code's messages. -/
theorem c4_witness :
    is_valid_epub (ZipState.zip ["OEBPS/content.opf"]) = (false, "Missing container.xml") ∧
    is_valid_epub (ZipState.badZip "bad magic") = (false, "Invalid ZIP file: " ++ "bad magic") :=
  ⟨(c4_validator_classification (ZipState.zip ["OEBPS/content.opf"])).2.1
      ["OEBPS/content.opf"] rfl (by decide),
   (c4_validator_classification (ZipState.badZip "bad magic")).2.2.2.1 "bad magic" rfl⟩

/-- C5: for an existing valid input whose target PDF already exists,
`convert_epub_to_pdf` with `overwrite = false` invokes no external
process and records a Success outcome with elapsed time 0, while with
`overwrite = true` (and a positive retry budget) the external tool is
invoked despite the existing output. -/
theorem c5_skip_or_overwrite (env : Env) (f : String) (od : Option String)
    (opts : List (String × OptValue)) (mr : Nat) (qd : Option String)
    (hex : env.epubExists = true) (hv : (is_valid_epub env.zipState).1 = true)
    (hpdf : env.pdfExists = true) :
    ((convert_epub_to_pdf env f od false opts mr qd).cmds = [] ∧
     (convert_epub_to_pdf env f od false opts mr qd).report = Report.empty.add_success f 0 ∧
     (convert_epub_to_pdf env f od false opts mr qd).outcome = Except.ok (some true)) ∧
    (1 ≤ mr → (convert_epub_to_pdf env f od true opts mr qd).cmds ≠ []) := by
  constructor
  · refine ⟨?_, ?_, ?_⟩ <;> simp [convert_epub_to_pdf, hex, hv, hpdf]
  · intro hmr hnil
    rw [convert_run env f od true opts mr qd hex hv (Or.inr rfl)] at hnil
    have hlen :=
      attemptLoop_cmds_len env f
        (joinPath (od.getD (dirnameStr f)) ((splitextStr (basenameStr f)).1 ++ ".pdf"))
        opts mr mr hmr Report.empty [] []
    rw [hnil] at hlen
    simp at hlen

/-- C5 witness at a concrete input. -/
theorem c5_witness :
    ((convert_epub_to_pdf envPdfExists "books/b.epub" none false [] 3 none).cmds = [] ∧
     (convert_epub_to_pdf envPdfExists "books/b.epub" none false [] 3 none).report =
       Report.empty.add_success "books/b.epub" 0 ∧
     (convert_epub_to_pdf envPdfExists "books/b.epub" none false [] 3 none).outcome =
       Except.ok (some true)) ∧
    (1 ≤ 3 → (convert_epub_to_pdf envPdfExists "books/b.epub" none true [] 3 none).cmds ≠ []) :=
  c5_skip_or_overwrite envPdfExists "books/b.epub" none [] 3 none rfl (by decide) rfl

/-- C7: the command built for the external tool is the tool name followed
by the two positional arguments (input path, output path), then the
per-option contributions in order: a true boolean contributes exactly its
flag, a false boolean contributes nothing, and every other value
contributes the flag followed by the stringified value. -/
theorem c7_command_construction (epub_file pdf_file : String)
    (pdf_options : List (String × OptValue)) :
    buildCmd epub_file pdf_file pdf_options =
      ["ebook-convert", epub_file, pdf_file] ++ renderOpts pdf_options :=
  buildCmd_foldl_general pdf_options ["ebook-convert", epub_file, pdf_file]

/-- C9: with `max_retries = 0`, an existing valid input whose PDF does
not yet exist leads to no external invocation, no sleep, an unchanged
report, and a `None` return (neither `True` nor `False`). -/
theorem c9_zero_retries_no_outcome (env : Env) (f : String) (od : Option String) (ow : Bool)
    (opts : List (String × OptValue)) (qd : Option String)
    (hex : env.epubExists = true) (hv : (is_valid_epub env.zipState).1 = true)
    (hpdf : env.pdfExists = false) :
    convert_epub_to_pdf env f od ow opts 0 qd = ⟨Report.empty, [], [], Except.ok none⟩ := by
  rw [convert_run env f od ow opts 0 qd hex hv (Or.inl hpdf)]
  rfl

/-- C9 witness at a concrete input. -/
theorem c9_witness :
    convert_epub_to_pdf envOkTool "books/b.epub" none false [] 0 none =
      ⟨Report.empty, [], [], Except.ok none⟩ :=
  c9_zero_retries_no_outcome envOkTool "books/b.epub" none false [] none rfl (by decide) rfl

/-- C10: when no output directory is given (as in every invocation from
`main`), every external command the call invokes names as its output path
the input file's own directory joined with the input's basename with its
extension replaced by ".pdf", so the PDF is placed next to its source. -/
theorem c10_output_next_to_source (env : Env) (f : String) (ow : Bool)
    (opts : List (String × OptValue)) (mr : Nat) (qd : Option String)
    (hex : env.epubExists = true) (hv : (is_valid_epub env.zipState).1 = true)
    (hskip : env.pdfExists = false ∨ ow = true) (hmr : 1 ≤ mr) :
    (convert_epub_to_pdf env f none ow opts mr qd).cmds ≠ [] ∧
    (convert_epub_to_pdf env f none ow opts mr qd).cmds.all
      (fun c =>
        c == buildCmd f (joinPath (dirnameStr f) ((splitextStr (basenameStr f)).1 ++ ".pdf"))
          opts) = true := by
  rw [convert_run env f none ow opts mr qd hex hv hskip]
  constructor
  · intro hnil
    have hlen :=
      attemptLoop_cmds_len env f
        (joinPath ((none : Option String).getD (dirnameStr f))
          ((splitextStr (basenameStr f)).1 ++ ".pdf"))
        opts mr mr hmr Report.empty [] []
    rw [hnil] at hlen
    simp at hlen
  · rw [List.all_eq_true]
    intro c hc
    rcases attemptLoop_cmds_mem env f
        (joinPath ((none : Option String).getD (dirnameStr f))
          ((splitextStr (basenameStr f)).1 ++ ".pdf"))
        opts mr mr Report.empty [] [] c hc with h | h
    · simp at h
    · simp [h]

/-- C10 witness at a concrete input. -/
theorem c10_witness :
    (convert_epub_to_pdf envOkTool "books/war.epub" none false [] 1 none).cmds ≠ [] ∧
    (convert_epub_to_pdf envOkTool "books/war.epub" none false [] 1 none).cmds.all
      (fun c =>
        c == buildCmd "books/war.epub"
          (joinPath (dirnameStr "books/war.epub")
            ((splitextStr (basenameStr "books/war.epub")).1 ++ ".pdf"))
          []) = true :=
  c10_output_next_to_source envOkTool "books/war.epub" false [] 1 none rfl (by decide)
    (Or.inl rfl) (by decide)

/-! ### Path lemmas for the quarantine claim -/

/-- A basename never contains a path separator. -/
lemma slash_not_mem_basename (p : String) : '/' ∉ (basenameStr p).data := by
  intro hmem
  have h1 : '/' ∈ p.data.reverse.takeWhile (fun c => c != '/') := by
    simpa [basenameStr] using hmem
  have h2 := List.mem_takeWhile_imp h1
  simp at h2

/-- Splitting off the extension and gluing it back gives the original
character list. -/
lemma splitextD_append (l : List Char) : (splitextD l).1 ++ (splitextD l).2 = l := by
  unfold splitextD
  cases h : l.reverse.dropWhile (fun c => c != '.' && c != '/') with
  | nil => simp
  | cons c rest =>
      dsimp only
      by_cases hc : c = '.'
      · subst hc
        by_cases hno : ((rest.takeWhile (fun x => x != '/')).any fun x => x != '.') = true
        · rw [if_pos rfl, if_pos hno]
          have hsplit : l.reverse.takeWhile (fun c => c != '.' && c != '/') ++
              ('.' :: rest) = l.reverse := by
            conv_rhs =>
              rw [← List.takeWhile_append_dropWhile (fun c => c != '.' && c != '/') l.reverse]
            rw [h]
          have hl : l = rest.reverse ++
              '.' :: (l.reverse.takeWhile (fun c => c != '.' && c != '/')).reverse := by
            have h2 := congrArg List.reverse hsplit
            simpa [List.reverse_append] using h2.symm
          exact hl.symm
        · rw [if_pos rfl, if_neg hno]
          simp
      · rw [if_neg hc]
        simp

/-- Splitting off the extension and gluing it back gives the original
string. -/
lemma splitextStr_append (p : String) : (splitextStr p).1 ++ (splitextStr p).2 = p := by
  apply String.ext
  rw [String.data_append]
  exact splitextD_append p.data

/-- Every character of the stem comes from the original list. -/
lemma splitextD_fst_mem (l : List Char) (c : Char) (hc : c ∈ (splitextD l).1) : c ∈ l := by
  unfold splitextD at hc
  cases h : l.reverse.dropWhile (fun x => x != '.' && x != '/') with
  | nil =>
      rw [h] at hc
      simpa using hc
  | cons d rest =>
      rw [h] at hc
      dsimp only at hc
      by_cases hd : d = '.'
      · by_cases hno : ((rest.takeWhile (fun x => x != '/')).any fun x => x != '.') = true
        · rw [if_pos hd, if_pos hno] at hc
          have hrest : c ∈ d :: rest := by
            simp only [List.mem_reverse] at hc
            exact List.mem_cons_of_mem d hc
          have hsub : d :: rest <:+ l.reverse := by
            rw [← h]
            exact List.dropWhile_suffix _
          have hmem : c ∈ l.reverse := hsub.subset hrest
          simpa using hmem
        · rw [if_pos hd, if_neg hno] at hc
          simpa using hc
      · rw [if_neg hd] at hc
        simpa using hc

/-- A nonempty string has a nonempty character list. -/
lemma data_ne_nil_of_ne_empty (s : String) (h : s ≠ "") : s.data ≠ [] := by
  intro hd
  exact h (String.ext hd)

/-- A string none of whose characters is a separator does not start with
one. -/
lemma head_ne_slash_of_not_mem (x : String) (h : '/' ∉ x.data) :
    x.data.head? ≠ some '/' := by
  cases hx : x.data with
  | nil => simp
  | cons c t =>
      simp only [List.head?_cons]
      intro hc
      apply h
      rw [hx]
      simp only [Option.some.injEq] at hc
      simp [hc]

/-- The deconflicted quarantine filename does not start with a separator
when the stem is separator-free. -/
lemma head_ne_slash_stem_ts (n ts e : String) (h : '/' ∉ n.data) :
    (n ++ "_" ++ ts ++ e).data.head? ≠ some '/' := by
  have hdata : (n ++ "_" ++ ts ++ e).data = n.data ++ ('_' :: (ts.data ++ e.data)) := by
    simp [String.data_append, List.append_assoc]
  rw [hdata]
  cases hn : n.data with
  | nil => simp
  | cons c t =>
      simp only [List.cons_append, List.head?_cons]
      intro hc
      apply h
      rw [hn]
      simp only [Option.some.injEq] at hc
      simp [hc]

/-- Joining a fixed directory with two relative names of different
lengths yields different paths. -/
lemma joinPath_ne_of_length (q x y : String) (hx : x.data.head? ≠ some '/')
    (hy : y.data.head? ≠ some '/') (hlen : x.length ≠ y.length) :
    joinPath q x ≠ joinPath q y := by
  unfold joinPath
  rw [if_neg hx, if_neg hy]
  by_cases hq : q = "" ∨ q.data.getLast? = some '/'
  · rw [if_pos hq, if_pos hq]
    intro heq
    have := congrArg String.length heq
    rw [String.length_append, String.length_append] at this
    omega
  · rw [if_neg hq, if_neg hq]
    intro heq
    have := congrArg String.length heq
    rw [String.length_append, String.length_append, String.length_append,
      String.length_append] at this
    omega

/-- Joining a directory with a nonempty relative name never returns the
directory itself. -/
lemma joinPath_ne_self (q b : String) (hb : b.data.head? ≠ some '/') (hb0 : b ≠ "") :
    joinPath q b ≠ q := by
  unfold joinPath
  rw [if_neg hb]
  have hblen : 1 ≤ b.length := by
    have := data_ne_nil_of_ne_empty b hb0
    cases hd : b.data with
    | nil => exact absurd hd this
    | cons c t => simp [String.length, hd]
  by_cases hq : q = "" ∨ q.data.getLast? = some '/'
  · rw [if_pos hq]
    intro heq
    have := congrArg String.length heq
    rw [String.length_append] at this
    omega
  · rw [if_neg hq]
    intro heq
    have := congrArg String.length heq
    rw [String.length_append, String.length_append] at this
    have h1 : ("/" : String).length = 1 := rfl
    omega

lemma erase_cons_of_ne (l : List String) (a b : String) (h : a ≠ b) :
    (b :: l).erase a = b :: l.erase a := by
  rw [List.erase_cons_tail]
  simp [h.symm]

lemma not_mem_of_pathExists_false (fs : QFS) (p : String) (h : pathExists fs p = false) :
    p ∉ fs.files ∧ p ∉ fs.dirs := by
  simp [pathExists] at h
  exact h


/-- C6: moving two distinct files with the same basename to quarantine
creates the quarantine directory if absent (idempotently), appends the
timestamp to the second file's stem so the two destination paths are
distinct, leaves both destinations existing, and removes both sources
(a move, not a copy). -/
theorem c6_quarantine_two_files (fs : QFS) (f1 f2 qdir ts1 ts2 : String)
    (hnd : fs.files.Nodup)
    (h1 : f1 ∈ fs.files) (h2 : f2 ∈ fs.files) (_h12 : f1 ≠ f2)
    (hb : basenameStr f1 = basenameStr f2)
    (hb0 : basenameStr f2 ≠ "")
    (hq : qdir ∉ fs.files)
    (hfresh1 : pathExists fs (joinPath qdir (basenameStr f2)) = false)
    (hfresh2 : pathExists fs
      (joinPath qdir ((splitextStr (basenameStr f2)).1 ++ "_" ++ ts2 ++
        (splitextStr (basenameStr f2)).2)) = false) :
    (move_to_quarantine fs f1 qdir ts1).2 ≠
      (move_to_quarantine (move_to_quarantine fs f1 qdir ts1).1 f2 qdir ts2).2 ∧
    (move_to_quarantine fs f1 qdir ts1).2 ∈
      (move_to_quarantine (move_to_quarantine fs f1 qdir ts1).1 f2 qdir ts2).1.files ∧
    (move_to_quarantine (move_to_quarantine fs f1 qdir ts1).1 f2 qdir ts2).2 ∈
      (move_to_quarantine (move_to_quarantine fs f1 qdir ts1).1 f2 qdir ts2).1.files ∧
    f1 ∉ (move_to_quarantine (move_to_quarantine fs f1 qdir ts1).1 f2 qdir ts2).1.files ∧
    f2 ∉ (move_to_quarantine (move_to_quarantine fs f1 qdir ts1).1 f2 qdir ts2).1.files ∧
    qdir ∈ (move_to_quarantine (move_to_quarantine fs f1 qdir ts1).1 f2 qdir ts2).1.dirs := by
  have hp1fs := not_mem_of_pathExists_false fs _ hfresh1
  have hp2fs := not_mem_of_pathExists_false fs _ hfresh2
  have hsl : '/' ∉ (basenameStr f2).data := slash_not_mem_basename f2
  have hhb : (basenameStr f2).data.head? ≠ some '/' := head_ne_slash_of_not_mem _ hsl
  have hsln : '/' ∉ ((splitextStr (basenameStr f2)).1).data := by
    intro hm
    exact hsl (splitextD_fst_mem (basenameStr f2).data '/' hm)
  have hn2 : ((splitextStr (basenameStr f2)).1 ++ "_" ++ ts2 ++
      (splitextStr (basenameStr f2)).2).data.head? ≠ some '/' :=
    head_ne_slash_stem_ts _ ts2 _ hsln
  have hglue : (splitextStr (basenameStr f2)).1 ++ (splitextStr (basenameStr f2)).2 =
      basenameStr f2 := splitextStr_append _
  have hlen : (basenameStr f2).length ≠
      ((splitextStr (basenameStr f2)).1 ++ "_" ++ ts2 ++
        (splitextStr (basenameStr f2)).2).length := by
    have hlg := congrArg String.length hglue
    rw [String.length_append] at hlg
    rw [String.length_append, String.length_append, String.length_append]
    have hus : ("_" : String).length = 1 := rfl
    omega
  have hp1p2 : joinPath qdir (basenameStr f2) ≠
      joinPath qdir ((splitextStr (basenameStr f2)).1 ++ "_" ++ ts2 ++
        (splitextStr (basenameStr f2)).2) :=
    joinPath_ne_of_length qdir _ _ hhb hn2 hlen
  have hp1q : joinPath qdir (basenameStr f2) ≠ qdir :=
    joinPath_ne_self qdir _ hhb hb0
  have hp1nf1 : joinPath qdir (basenameStr f2) ≠ f1 := by
    intro h
    apply hp1fs.1
    rw [h]
    exact h1
  have hp1nf2 : joinPath qdir (basenameStr f2) ≠ f2 := by
    intro h
    apply hp1fs.1
    rw [h]
    exact h2
  have hp2nf1 : joinPath qdir ((splitextStr (basenameStr f2)).1 ++ "_" ++ ts2 ++
      (splitextStr (basenameStr f2)).2) ≠ f1 := by
    intro h
    apply hp2fs.1
    rw [h]
    exact h1
  have hp2nf2 : joinPath qdir ((splitextStr (basenameStr f2)).1 ++ "_" ++ ts2 ++
      (splitextStr (basenameStr f2)).2) ≠ f2 := by
    intro h
    apply hp2fs.1
    rw [h]
    exact h2
  obtain ⟨d1, hd1q, hd1sub, hd1⟩ :
      ∃ d1, qdir ∈ d1 ∧ (∀ x ∈ d1, x ∈ fs.dirs ∨ x = qdir) ∧
        (if pathExists fs qdir then fs else { fs with dirs := qdir :: fs.dirs }) =
          QFS.mk fs.files d1 := by
    by_cases hqd : pathExists fs qdir = true
    · have hqdirs : qdir ∈ fs.dirs := by
        simp [pathExists] at hqd
        rcases hqd with h | h
        · exact absurd h hq
        · exact h
      exact ⟨fs.dirs, hqdirs, fun x hx => Or.inl hx, by rw [if_pos hqd]⟩
    · refine ⟨qdir :: fs.dirs, by simp, ?_, by rw [if_neg hqd]⟩
      intro x hx
      rcases List.mem_cons.mp hx with h | h
      · exact Or.inr h
      · exact Or.inl h
  have hex1 : pathExists (QFS.mk fs.files d1) (joinPath qdir (basenameStr f2)) = false := by
    simp [pathExists]
    refine ⟨hp1fs.1, ?_⟩
    intro hm
    rcases hd1sub _ hm with h | h
    · exact hp1fs.2 h
    · exact hp1q h
  have hmove1 : move_to_quarantine fs f1 qdir ts1 =
      (QFS.mk (joinPath qdir (basenameStr f2) :: fs.files.erase f1) d1,
       joinPath qdir (basenameStr f2)) := by
    simp only [move_to_quarantine, hd1, hb, hex1]
    simp
  have hqd2 : pathExists (QFS.mk (joinPath qdir (basenameStr f2) :: fs.files.erase f1) d1)
      qdir = true := by
    simp [pathExists]
    right
    exact hd1q
  have hcol : pathExists (QFS.mk (joinPath qdir (basenameStr f2) :: fs.files.erase f1) d1)
      (joinPath qdir (basenameStr f2)) = true := by
    simp [pathExists]
  have hmove2 : move_to_quarantine
      (QFS.mk (joinPath qdir (basenameStr f2) :: fs.files.erase f1) d1) f2 qdir ts2 =
      (QFS.mk
        (joinPath qdir ((splitextStr (basenameStr f2)).1 ++ "_" ++ ts2 ++
            (splitextStr (basenameStr f2)).2) ::
          (joinPath qdir (basenameStr f2) :: fs.files.erase f1).erase f2) d1,
       joinPath qdir ((splitextStr (basenameStr f2)).1 ++ "_" ++ ts2 ++
         (splitextStr (basenameStr f2)).2)) := by
    simp only [move_to_quarantine, hqd2, hcol]
    simp [hqd2, hcol]
  rw [hmove1, hmove2]
  have herase2 : (joinPath qdir (basenameStr f2) :: fs.files.erase f1).erase f2 =
      joinPath qdir (basenameStr f2) :: (fs.files.erase f1).erase f2 :=
    erase_cons_of_ne _ f2 _ (fun h => hp1nf2 h.symm)
  refine ⟨hp1p2, ?_, ?_, ?_, ?_, hd1q⟩
  · rw [herase2]
    exact List.mem_cons_of_mem _ (List.mem_cons_self _ _)
  · exact List.mem_cons_self _ _
  · intro hmem
    rcases List.mem_cons.mp hmem with h | h
    · exact hp2nf1 h.symm
    · rw [herase2] at h
      rcases List.mem_cons.mp h with h' | h'
      · exact hp1nf1 h'.symm
      · exact hnd.not_mem_erase (List.mem_of_mem_erase h')
  · intro hmem
    rcases List.mem_cons.mp hmem with h | h
    · exact hp2nf2 h.symm
    · have hnodup : (joinPath qdir (basenameStr f2) :: fs.files.erase f1).Nodup := by
        rw [List.nodup_cons]
        refine ⟨?_, hnd.erase f1⟩
        intro hm
        exact hp1fs.1 (List.mem_of_mem_erase hm)
      exact hnodup.not_mem_erase h

/-- C6 witness at concrete inputs: two EPUBs named `book.epub` in
different directories, quarantined one after the other. -/
theorem c6_witness :
    (move_to_quarantine ⟨["d1/book.epub", "d2/book.epub"], []⟩ "d1/book.epub" "q"
        "20240101_120000").2 ≠
      (move_to_quarantine
        (move_to_quarantine ⟨["d1/book.epub", "d2/book.epub"], []⟩ "d1/book.epub" "q"
          "20240101_120000").1 "d2/book.epub" "q" "20240101_120001").2 ∧
    (move_to_quarantine ⟨["d1/book.epub", "d2/book.epub"], []⟩ "d1/book.epub" "q"
        "20240101_120000").2 ∈
      (move_to_quarantine
        (move_to_quarantine ⟨["d1/book.epub", "d2/book.epub"], []⟩ "d1/book.epub" "q"
          "20240101_120000").1 "d2/book.epub" "q" "20240101_120001").1.files ∧
    (move_to_quarantine
        (move_to_quarantine ⟨["d1/book.epub", "d2/book.epub"], []⟩ "d1/book.epub" "q"
          "20240101_120000").1 "d2/book.epub" "q" "20240101_120001").2 ∈
      (move_to_quarantine
        (move_to_quarantine ⟨["d1/book.epub", "d2/book.epub"], []⟩ "d1/book.epub" "q"
          "20240101_120000").1 "d2/book.epub" "q" "20240101_120001").1.files ∧
    "d1/book.epub" ∉
      (move_to_quarantine
        (move_to_quarantine ⟨["d1/book.epub", "d2/book.epub"], []⟩ "d1/book.epub" "q"
          "20240101_120000").1 "d2/book.epub" "q" "20240101_120001").1.files ∧
    "d2/book.epub" ∉
      (move_to_quarantine
        (move_to_quarantine ⟨["d1/book.epub", "d2/book.epub"], []⟩ "d1/book.epub" "q"
          "20240101_120000").1 "d2/book.epub" "q" "20240101_120001").1.files ∧
    "q" ∈
      (move_to_quarantine
        (move_to_quarantine ⟨["d1/book.epub", "d2/book.epub"], []⟩ "d1/book.epub" "q"
          "20240101_120000").1 "d2/book.epub" "q" "20240101_120001").1.dirs :=
  c6_quarantine_two_files ⟨["d1/book.epub", "d2/book.epub"], []⟩ "d1/book.epub"
    "d2/book.epub" "q" "20240101_120000" "20240101_120001" (by decide) (by decide)
    (by decide) (by decide) (by decide) (by decide) (by decide) (by decide) (by decide)
